import Mathlib

/-!
Verification of the Enhancement Orchestration Engine of `src/index.tsx`:
the undo/redo settings history, the prompt compiler `buildPrompt`, and the
batch scheduler (reducer cases `ADD_TO_BATCH`, `UPDATE_BATCH_ITEM`,
`CLEAR_BATCH` together with the batch-processing effect).

The embedding keeps the source's names where Lean allows it.  TypeScript
`number` fields are modelled as `Int` (the UI sliders produce integers and
imported presets may carry any integer), string fields as `String`, string
unions as inductive enums, and optional fields as `Option`.
-/

namespace UpscaleV2

/-! ## Enumerations (string-union types of `src/index.tsx`, lines 69-88) -/

/-- The `"2x" | "4x" | "8x"` union of `ToolStates.superResolution.upscale`. -/
inductive UpscaleOpt | x2 | x4 | x8
deriving DecidableEq, Repr

def UpscaleOpt.toStr : UpscaleOpt → String
  | .x2 => "2x"
  | .x4 => "4x"
  | .x8 => "8x"

/-- The `"auto" | "custom"` union of `colorTone.whiteBalance`. -/
inductive WhiteBalanceOpt | auto | custom
deriving DecidableEq, Repr

def WhiteBalanceOpt.toStr : WhiteBalanceOpt → String
  | .auto => "auto"
  | .custom => "custom"

/-- The `"neutral" | "slightly warm"` union of `colorTone.skinTone`. -/
inductive SkinToneOpt | neutral | slightlyWarm
deriving DecidableEq, Repr

def SkinToneOpt.toStr : SkinToneOpt → String
  | .neutral => "neutral"
  | .slightlyWarm => "slightly warm"

/-- The `"low" | "medium"` union of `facialRetouch.intensity`. -/
inductive IntensityOpt | low | medium
deriving DecidableEq, Repr

def IntensityOpt.toStr : IntensityOpt → String
  | .low => "low"
  | .medium => "medium"

/-- The `'medium' | 'high'` union of `preserveDetails.strength`. -/
inductive StrengthOpt | medium | high
deriving DecidableEq, Repr

def StrengthOpt.toStr : StrengthOpt → String
  | .medium => "medium"
  | .high => "high"

/-- The `"keep" | "color" | "custom"` union of `hairStyling.mode`. -/
inductive HairMode | keep | color | custom
deriving DecidableEq, Repr

def HairMode.toStr : HairMode → String
  | .keep => "keep"
  | .color => "color"
  | .custom => "custom"

/-- The `"keep" | "solid" | "blur" | "custom"` union of `background.mode`. -/
inductive BackgroundMode | keep | solid | blur | custom
deriving DecidableEq, Repr

def BackgroundMode.toStr : BackgroundMode → String
  | .keep => "keep"
  | .solid => "solid"
  | .blur => "blur"
  | .custom => "custom"

/-- The `"original" | "1:1" | "4:5" | "16:9"` union of `crop.aspectRatio`. -/
inductive AspectOpt | original | oneToOne | fourToFive | sixteenToNine
deriving DecidableEq, Repr

def AspectOpt.toStr : AspectOpt → String
  | .original => "original"
  | .oneToOne => "1:1"
  | .fourToFive => "4:5"
  | .sixteenToNine => "16:9"

/-! ## The tool sub-records of `ToolStates` (src/index.tsx lines 70-85) -/

structure SuperResolution where
  enabled : Bool
  upscale : UpscaleOpt
deriving DecidableEq, Repr

structure ColorTone where
  enabled : Bool
  whiteBalance : WhiteBalanceOpt
  temp : Int
  tint : Int
  exposure : Int
  contrast : Int
  highlights : Int
  shadows : Int
  vibrance : Int
  saturation : Int
  skinTone : SkinToneOpt
deriving DecidableEq, Repr

structure FacialRetouch where
  enabled : Bool
  intensity : IntensityOpt
  eyeEnhance : Bool
  teethWhiten : Bool
deriving DecidableEq, Repr

structure PreserveDetails where
  enabled : Bool
  strength : StrengthOpt
deriving DecidableEq, Repr

structure HairStyling where
  enabled : Bool
  mode : HairMode
  color : String
  customInstruction : String
deriving DecidableEq, Repr

structure Background where
  enabled : Bool
  mode : BackgroundMode
  solidColor : String
  customInstruction : String
deriving DecidableEq, Repr

structure Crop where
  enabled : Bool
  aspectRatio : AspectOpt
deriving DecidableEq, Repr

structure Distractions where
  enabled : Bool
  list : String
deriving DecidableEq, Repr

structure NoiseAndOptics where
  enabled : Bool
  lumaNoise : Int
  chromaNoise : Int
  caFix : Int
  vignette : Int
  distortion : Int
deriving DecidableEq, Repr

/-- The `ToolStates` record (src/index.tsx lines 70-85). -/
structure ToolStates where
  superResolution : SuperResolution
  colorTone : ColorTone
  facialRetouch : FacialRetouch
  preserveDetails : PreserveDetails
  hairStyling : HairStyling
  background : Background
  crop : Crop
  distractions : Distractions
  noiseAndOptics : NoiseAndOptics
deriving DecidableEq, Repr

/-- The `initialToolStates` constant (src/index.tsx lines 126-140). -/
def initialToolStates : ToolStates where
  superResolution := { enabled := true, upscale := .x2 }
  colorTone := { enabled := true, whiteBalance := .auto, temp := 0, tint := 0,
                 exposure := 0, contrast := 0, highlights := 0, shadows := 0,
                 vibrance := 0, saturation := 0, skinTone := .neutral }
  facialRetouch := { enabled := true, intensity := .low, eyeEnhance := true,
                     teethWhiten := true }
  preserveDetails := { enabled := false, strength := .medium }
  hairStyling := { enabled := true, mode := .color, color := "#5C3D2E",
                   customInstruction := "" }
  background := { enabled := false, mode := .keep, solidColor := "#ffffff",
                  customInstruction := "" }
  crop := { enabled := false, aspectRatio := .original }
  distractions := { enabled := false, list := "" }
  noiseAndOptics := { enabled := false, lumaNoise := 0, chromaNoise := 0,
                      caFix := 0, vignette := 0, distortion := 0 }

/-! ## The prompt compiler `buildPrompt` (src/index.tsx lines 252-296)

The source pushes one clause string per enabled tool group onto `ops`, in a
fixed textual order.  The embedding names each potential clause with a
`ClauseTag`, gives the guard of each push in `promptClauses` and the pushed
text in `clauseText`; `buildPromptOps` recombines them into the `ops` list
exactly as the source builds it. -/

/-- Model of the JavaScript `String.prototype.trim()` the source applies to
free-text fields: strip leading and trailing whitespace. -/
def jsTrim (s : String) : String :=
  ⟨((s.data.dropWhile Char.isWhitespace).reverse.dropWhile Char.isWhitespace).reverse⟩

/-- Model of the JavaScript `toUpperCase()` on the ASCII strength names. -/
def jsToUpperCase (s : String) : String :=
  ⟨s.data.map Char.toUpper⟩

/-- One tag per conditional `ops.push(...)` site of `buildPrompt`. -/
inductive ClauseTag
  | superResolution | colorTone | facialRetouch | preserveDetails
  | hairStyling | background | crop | distractions | noiseAndOptics
deriving DecidableEq, Repr

/-- The `corrections` array of the noise/optics block (lines 277-282):
one entry per parameter, guarded by `> 0` for the three noise/CA sliders
and by `!== 0` for vignette and distortion. -/
def noiseCorrections (t : ToolStates) : List String :=
  (if 0 < t.noiseAndOptics.lumaNoise then
    ["luma noise reduction (" ++ toString t.noiseAndOptics.lumaNoise ++ "/10)"] else []) ++
  (if 0 < t.noiseAndOptics.chromaNoise then
    ["chroma noise reduction (" ++ toString t.noiseAndOptics.chromaNoise ++ "/10)"] else []) ++
  (if 0 < t.noiseAndOptics.caFix then
    ["chromatic aberration correction (" ++ toString t.noiseAndOptics.caFix ++ "/10)"] else []) ++
  (if t.noiseAndOptics.vignette ≠ 0 then
    ["vignette correction (" ++ toString t.noiseAndOptics.vignette ++ "/10)"] else []) ++
  (if t.noiseAndOptics.distortion ≠ 0 then
    ["lens distortion correction (" ++ toString t.noiseAndOptics.distortion ++ "/10)"] else [])

/-- The text pushed for each clause (src/index.tsx lines 254-283), built by
string concatenation exactly as the source's template literals build it. -/
def clauseText (c : ClauseTag) (t : ToolStates) : String :=
  match c with
  | .superResolution =>
      "SUPER RESOLUTION: Perform a high-quality " ++ t.superResolution.upscale.toStr ++
      " super-resolution upscale, effectively doubling the image's pixel dimensions. The primary goal is to reconstruct and synthesize photorealistic fine details. Enhance textures like skin pores, individual hair strands, and fabric weaves with exceptional clarity. The final image must be sharp and artifact-free. Do not simply enlarge and smooth the image; new, believable detail must be generated."
  | .colorTone =>
      "COLOR & EXPOSURE: " ++
      ("WB " ++ t.colorTone.whiteBalance.toStr ++
        (if t.colorTone.whiteBalance = .custom then
          " (temp:" ++ toString t.colorTone.temp ++ ", tint:" ++ toString t.colorTone.tint ++ ")"
        else "")) ++
      "; exposure " ++ toString t.colorTone.exposure ++
      "; contrast " ++ toString t.colorTone.contrast ++
      "; highlights/shadows recover; vibrance " ++ toString t.colorTone.vibrance ++
      "; saturation " ++ toString t.colorTone.saturation ++
      "; skin tone " ++ t.colorTone.skinTone.toStr ++ "."
  | .facialRetouch =>
      "FACIAL RETOUCH (SUBTLE): intensity " ++ t.facialRetouch.intensity.toStr ++
      "; eyes " ++ (if t.facialRetouch.eyeEnhance then "on" else "off") ++
      "; teeth " ++ (if t.facialRetouch.teethWhiten then "on" else "off") ++
      "; keep pores/texture; reduce shine; soften fine wrinkles/under-eye; reduce glasses glare; DO NOT change identity/age/facial structure/expression."
  | .preserveDetails =>
      "PRESERVE DETAILS (" ++ jsToUpperCase t.preserveDetails.strength.toStr ++
      "): Meticulously preserve unique, defining facial features like moles, scars, freckles, and birthmarks. Do not remove, soften, or alter them. Ensure original skin and fabric textures are fully maintained."
  | .hairStyling =>
      "HAIR STYLING: " ++
      ("mode: " ++ t.hairStyling.mode.toStr ++
        (if t.hairStyling.mode = .color then ", color: " ++ t.hairStyling.color else "") ++
        (if t.hairStyling.mode = .custom then
          ", instruction: \"" ++ t.hairStyling.customInstruction ++ "\"" else "")) ++
      "; maintain realistic texture/shine; precise masking; no color bleed."
  | .background =>
      "BACKGROUND: " ++
      ("mode: " ++ t.background.mode.toStr ++
        (if t.background.mode = .solid then ", color: " ++ t.background.solidColor else "") ++
        (if t.background.mode = .custom then
          ", instruction: \"" ++ t.background.customInstruction ++ "\"" else "")) ++
      "; hair-safe matting; realistic shadows; no halos/spill."
  | .crop =>
      "CROP/ROTATE: aspect " ++ t.crop.aspectRatio.toStr ++
      "; straightened; safe headroom; keep ears/hair."
  | .distractions =>
      "OBJECT REMOVAL: Carefully and seamlessly remove the following distractions: \"" ++
      jsTrim t.distractions.list ++
      "\". Fill the area with realistic, context-aware content. The edit must be undetectable."
  | .noiseAndOptics =>
      "NOISE & OPTICS CORRECTION: " ++ String.intercalate ", " (noiseCorrections t) ++ "."

/-- The sequence of `ops.push` guards of `buildPrompt`, in source order
(lines 254, 255, 260, 261, 262, 268, 274, 275, 276-283).  The distraction
guard is the truthiness test `t.distractions.list.trim()`; the noise guard
is `corrections.length > 0` inside `if (t.noiseAndOptics.enabled)`. -/
def promptClauses (t : ToolStates) : List ClauseTag :=
  (if t.superResolution.enabled then [ClauseTag.superResolution] else []) ++
  (if t.colorTone.enabled then [ClauseTag.colorTone] else []) ++
  (if t.facialRetouch.enabled then [ClauseTag.facialRetouch] else []) ++
  (if t.preserveDetails.enabled then [ClauseTag.preserveDetails] else []) ++
  (if t.hairStyling.enabled ∧ t.hairStyling.mode ≠ HairMode.keep then [ClauseTag.hairStyling] else []) ++
  (if t.background.enabled then [ClauseTag.background] else []) ++
  (if t.crop.enabled then [ClauseTag.crop] else []) ++
  (if t.distractions.enabled ∧ jsTrim t.distractions.list ≠ "" then [ClauseTag.distractions] else []) ++
  (if t.noiseAndOptics.enabled ∧ noiseCorrections t ≠ [] then [ClauseTag.noiseAndOptics] else [])

/-- The `ops` array of `buildPrompt` just before numbering (line 286). -/
def buildPromptOps (t : ToolStates) : List String :=
  (promptClauses t).map (fun c => clauseText c t)

/-- The `numberedOps` string: `ops.map((op, i) => ...).join("\n")` (line 286). -/
def numberOps (ops : List String) : String :=
  String.intercalate "\n" (ops.enum.map (fun p => toString (p.1 + 1) ++ ") " ++ p.2))

/-- The compiled prompt (src/index.tsx lines 288-295). -/
def buildPrompt (t : ToolStates) : String :=
  "Enhance this PORTRAIT while preserving identity and realism.\n\nORDER OF OPERATIONS:\n" ++
  numberOps (buildPromptOps t) ++
  "\n\nCONSISTENCY: same intensity across faces; consistent skin tone.\nLIMITS: no style transfer; no makeup/clothing/body reshaping/new objects.\nOUTPUT: single high-res PNG (sRGB)."

/-- The fixed canonical clause order of the compiler. -/
def canonicalClauses : List ClauseTag :=
  [.superResolution, .colorTone, .facialRetouch, .preserveDetails,
   .hairStyling, .background, .crop, .distractions, .noiseAndOptics]

/-! ## Partial tool updates (the `UPDATE_TOOL` payload)

`UPDATE_TOOL` carries `Partial<ToolStates[tool]>` and the reducer merges it
into the named sub-record with an object spread (line 152).  A partial
record is modelled with one `Option` per field (`none` = key absent), and
the spread `{...old, ...patch}` as `Option.getD` per field. -/

structure SuperResolutionPatch where
  enabled : Option Bool := none
  upscale : Option UpscaleOpt := none

structure ColorTonePatch where
  enabled : Option Bool := none
  whiteBalance : Option WhiteBalanceOpt := none
  temp : Option Int := none
  tint : Option Int := none
  exposure : Option Int := none
  contrast : Option Int := none
  highlights : Option Int := none
  shadows : Option Int := none
  vibrance : Option Int := none
  saturation : Option Int := none
  skinTone : Option SkinToneOpt := none

structure FacialRetouchPatch where
  enabled : Option Bool := none
  intensity : Option IntensityOpt := none
  eyeEnhance : Option Bool := none
  teethWhiten : Option Bool := none

structure PreserveDetailsPatch where
  enabled : Option Bool := none
  strength : Option StrengthOpt := none

structure HairStylingPatch where
  enabled : Option Bool := none
  mode : Option HairMode := none
  color : Option String := none
  customInstruction : Option String := none

structure BackgroundPatch where
  enabled : Option Bool := none
  mode : Option BackgroundMode := none
  solidColor : Option String := none
  customInstruction : Option String := none

structure CropPatch where
  enabled : Option Bool := none
  aspectRatio : Option AspectOpt := none

structure DistractionsPatch where
  enabled : Option Bool := none
  list : Option String := none

structure NoiseAndOpticsPatch where
  enabled : Option Bool := none
  lumaNoise : Option Int := none
  chromaNoise : Option Int := none
  caFix : Option Int := none
  vignette : Option Int := none
  distortion : Option Int := none

/-- The `{ tool, settings }` payload of `UPDATE_TOOL`: which tool sub-record
is spread with which partial settings. -/
inductive ToolPatch
  | superResolution (p : SuperResolutionPatch)
  | colorTone (p : ColorTonePatch)
  | facialRetouch (p : FacialRetouchPatch)
  | preserveDetails (p : PreserveDetailsPatch)
  | hairStyling (p : HairStylingPatch)
  | background (p : BackgroundPatch)
  | crop (p : CropPatch)
  | distractions (p : DistractionsPatch)
  | noiseAndOptics (p : NoiseAndOpticsPatch)

/-- The `newTools` computation of `UPDATE_TOOL` (line 152): spread the
partial settings over the named tool, keep the other tools. -/
def applyToolPatch (t : ToolStates) : ToolPatch → ToolStates
  | .superResolution p =>
      { t with superResolution :=
        { enabled := p.enabled.getD t.superResolution.enabled,
          upscale := p.upscale.getD t.superResolution.upscale } }
  | .colorTone p =>
      { t with colorTone :=
        { enabled := p.enabled.getD t.colorTone.enabled,
          whiteBalance := p.whiteBalance.getD t.colorTone.whiteBalance,
          temp := p.temp.getD t.colorTone.temp,
          tint := p.tint.getD t.colorTone.tint,
          exposure := p.exposure.getD t.colorTone.exposure,
          contrast := p.contrast.getD t.colorTone.contrast,
          highlights := p.highlights.getD t.colorTone.highlights,
          shadows := p.shadows.getD t.colorTone.shadows,
          vibrance := p.vibrance.getD t.colorTone.vibrance,
          saturation := p.saturation.getD t.colorTone.saturation,
          skinTone := p.skinTone.getD t.colorTone.skinTone } }
  | .facialRetouch p =>
      { t with facialRetouch :=
        { enabled := p.enabled.getD t.facialRetouch.enabled,
          intensity := p.intensity.getD t.facialRetouch.intensity,
          eyeEnhance := p.eyeEnhance.getD t.facialRetouch.eyeEnhance,
          teethWhiten := p.teethWhiten.getD t.facialRetouch.teethWhiten } }
  | .preserveDetails p =>
      { t with preserveDetails :=
        { enabled := p.enabled.getD t.preserveDetails.enabled,
          strength := p.strength.getD t.preserveDetails.strength } }
  | .hairStyling p =>
      { t with hairStyling :=
        { enabled := p.enabled.getD t.hairStyling.enabled,
          mode := p.mode.getD t.hairStyling.mode,
          color := p.color.getD t.hairStyling.color,
          customInstruction := p.customInstruction.getD t.hairStyling.customInstruction } }
  | .background p =>
      { t with background :=
        { enabled := p.enabled.getD t.background.enabled,
          mode := p.mode.getD t.background.mode,
          solidColor := p.solidColor.getD t.background.solidColor,
          customInstruction := p.customInstruction.getD t.background.customInstruction } }
  | .crop p =>
      { t with crop :=
        { enabled := p.enabled.getD t.crop.enabled,
          aspectRatio := p.aspectRatio.getD t.crop.aspectRatio } }
  | .distractions p =>
      { t with distractions :=
        { enabled := p.enabled.getD t.distractions.enabled,
          list := p.list.getD t.distractions.list } }
  | .noiseAndOptics p =>
      { t with noiseAndOptics :=
        { enabled := p.enabled.getD t.noiseAndOptics.enabled,
          lumaNoise := p.lumaNoise.getD t.noiseAndOptics.lumaNoise,
          chromaNoise := p.chromaNoise.getD t.noiseAndOptics.chromaNoise,
          caFix := p.caFix.getD t.noiseAndOptics.caFix,
          vignette := p.vignette.getD t.noiseAndOptics.vignette,
          distortion := p.distortion.getD t.noiseAndOptics.distortion } }

/-! ## Batch items (src/index.tsx lines 86-88) -/

/-- The `ImageFile` record `{ name, type, data }`. -/
structure ImageFile where
  name : String
  type : String
  data : String
deriving DecidableEq, Repr

/-- The `BatchItem.status` union. -/
inductive Status | pending | processing | done | error | cancelled
deriving DecidableEq, Repr

/-- The `BatchItem` record (line 88).  `result`, `prompt`, `error` and
`preset` are optional keys; `ADD_TO_BATCH` creates items without the first
three and with `preset` set. -/
structure BatchItem where
  id : String
  file : ImageFile
  status : Status
  result : Option String
  prompt : Option String
  error : Option String
  preset : Option ToolStates
deriving DecidableEq, Repr

/-- The `UPDATE_BATCH_ITEM` payload `Partial<BatchItem> & { id }`: every
field but `id` may be absent. -/
structure BatchPatch where
  id : String
  file : Option ImageFile := none
  status : Option Status := none
  result : Option String := none
  prompt : Option String := none
  error : Option String := none
  preset : Option ToolStates := none
deriving DecidableEq, Repr

/-- The object spread `{ ...item, ...payload }` of the `UPDATE_BATCH_ITEM`
reducer case (line 198): a key present in the payload wins, an absent key
leaves the item's value. -/
def mergeBatchPatch (it : BatchItem) (p : BatchPatch) : BatchItem where
  id := p.id
  file := p.file.getD it.file
  status := p.status.getD it.status
  result := p.result.orElse (fun _ => it.result)
  prompt := p.prompt.orElse (fun _ => it.prompt)
  error := p.error.orElse (fun _ => it.error)
  preset := p.preset.orElse (fun _ => it.preset)

/-- The queue rewrite of `UPDATE_BATCH_ITEM` (line 198):
`batchQueue.map(item => item.id === payload.id ? { ...item, ...payload } : item)`. -/
def updateQueue (q : List BatchItem) (p : BatchPatch) : List BatchItem :=
  q.map (fun it => if it.id = p.id then mergeBatchPatch it p else it)

/-- The new items created by `ADD_TO_BATCH` (lines 193-195): one `pending`
item per file, with the freshly generated id and the current tools as
`preset`; `result`, `prompt`, `error` keys absent. -/
def newBatchItems (tools : ToolStates) (files : List ImageFile) (ids : List String) :
    List BatchItem :=
  (files.zip ids).map (fun fi =>
    { id := fi.2, file := fi.1, status := .pending,
      result := none, prompt := none, error := none, preset := some tools })

/-! ## The application state and reducer (src/index.tsx lines 90-208)

Only the fields and actions the Enhancement Orchestration Engine claims
touch are embedded: the settings history, the live tools, the batch queue
and the result library. -/

structure AppState where
  history : List ToolStates
  historyIndex : Nat
  tools : ToolStates
  batchQueue : List BatchItem
  enhancedLibrary : List BatchItem
deriving DecidableEq, Repr

/-- The relevant constructors of the `Action` union (lines 99-122).
`ADD_TO_BATCH` carries the ids generated at enqueue time
(`file.name-Date.now()-Math.random()` in the source) alongside the files. -/
inductive Action
  | updateTool (p : ToolPatch)
  | undo
  | redo
  | addToBatch (files : List ImageFile) (ids : List String)
  | updateBatchItem (p : BatchPatch)
  | clearBatch
  | addToLibrary (item : BatchItem)

/-- The `appReducer` cases for the embedded actions (lines 151-167 and
192-202).  `history[i].tools` is total in the source only under the
invariant `historyIndex < history.length`; out of range the embedding
falls back to `initialToolStates` (never reached from valid states). -/
def appReducer (state : AppState) : Action → AppState
  | .updateTool p =>
      let newTools := applyToolPatch state.tools p
      let newHistory := state.history.take (state.historyIndex + 1) ++ [newTools]
      { state with tools := newTools, history := newHistory,
                   historyIndex := newHistory.length - 1 }
  | .undo =>
      if 0 < state.historyIndex then
        let i := state.historyIndex - 1
        { state with historyIndex := i, tools := state.history.getD i initialToolStates }
      else state
  | .redo =>
      if state.historyIndex < state.history.length - 1 then
        let i := state.historyIndex + 1
        { state with historyIndex := i, tools := state.history.getD i initialToolStates }
      else state
  | .addToBatch files ids =>
      { state with batchQueue := state.batchQueue ++ newBatchItems state.tools files ids }
  | .updateBatchItem p =>
      { state with batchQueue := updateQueue state.batchQueue p }
  | .clearBatch =>
      { state with batchQueue := [] }
  | .addToLibrary item =>
      { state with enhancedLibrary :=
          item :: state.enhancedLibrary.filter (fun it => it.id ≠ item.id) }

/-- The embedded fields of the `initialState` constant (lines 142-147). -/
def initialState : AppState where
  history := [initialToolStates]
  historyIndex := 0
  tools := initialToolStates
  batchQueue := []
  enhancedLibrary := []

/-- `BATCH_CONCURRENCY` (src/index.tsx line 20). -/
def BATCH_CONCURRENCY : Nat := 2

/-! ## The missing-capability check (src/index.tsx lines 31-36, 299, 702) -/

/-- The message thrown by `enhanceImage` when `ai` is null (line 299). -/
def missingApiKeyMessage : String :=
  "Missing API key. Set AI_STUDIO_API_KEY, VITE_API_KEY, or process.env.API_KEY."

/-- The guard at the head of `enhanceImage` (line 299): with no API key the
call fails before any work; otherwise the external call proceeds (its
outcome is the external service's, out of scope). -/
def enhanceImageCheck (hasApiKey : Bool) : Except String Unit :=
  if hasApiKey then .ok () else .error missingApiKeyMessage

/-- The `canEnhance` guard of the Enhance / Start Batch button (line 702):
`(currentImage || hasPendingBatch) && !isProcessing && apiKey`. -/
def canEnhance (hasCurrentImage hasPendingBatch isProcessing hasApiKey : Bool) : Bool :=
  (hasCurrentImage || hasPendingBatch) && !isProcessing && hasApiKey

/-! ## Concrete settings values used as counterexamples -/

/-- A settings value with every tool group disabled. -/
def tAllOff : ToolStates where
  superResolution := { enabled := false, upscale := .x2 }
  colorTone := { initialToolStates.colorTone with enabled := false }
  facialRetouch := { initialToolStates.facialRetouch with enabled := false }
  preserveDetails := { enabled := false, strength := .medium }
  hairStyling := { initialToolStates.hairStyling with enabled := false }
  background := { initialToolStates.background with enabled := false }
  crop := { enabled := false, aspectRatio := .original }
  distractions := { enabled := false, list := "" }
  noiseAndOptics := { initialToolStates.noiseAndOptics with enabled := false }

/-- Hair styling enabled in `custom` mode with a blank custom instruction. -/
def tHairBlank : ToolStates :=
  { tAllOff with hairStyling :=
      { enabled := true, mode := .custom, color := "#5C3D2E", customInstruction := "" } }

/-- Hair styling enabled in `custom` mode with a padded custom instruction. -/
def tHairPad : ToolStates :=
  { tAllOff with hairStyling :=
      { enabled := true, mode := .custom, color := "#5C3D2E", customInstruction := " x " } }

/-- Hair styling enabled in `custom` mode with the trimmed instruction. -/
def tHairTrim : ToolStates :=
  { tAllOff with hairStyling :=
      { enabled := true, mode := .custom, color := "#5C3D2E", customInstruction := "x" } }

/-- Background enabled in its no-op mode `keep`. -/
def tBgKeep : ToolStates :=
  { tAllOff with background :=
      { enabled := true, mode := .keep, solidColor := "#ffffff", customInstruction := "" } }

/-- Background enabled in `custom` mode with a blank custom instruction. -/
def tBgBlank : ToolStates :=
  { tAllOff with background :=
      { enabled := true, mode := .custom, solidColor := "#ffffff", customInstruction := "" } }

/-- Background enabled in `custom` mode with a padded custom instruction. -/
def tBgPad : ToolStates :=
  { tAllOff with background :=
      { enabled := true, mode := .custom, solidColor := "#ffffff", customInstruction := " y " } }

/-- Background enabled in `custom` mode with the trimmed instruction. -/
def tBgTrim : ToolStates :=
  { tAllOff with background :=
      { enabled := true, mode := .custom, solidColor := "#ffffff", customInstruction := "y" } }

/-- Noise/optics enabled with a negative luma-noise value and all other
parameters zero. -/
def tNegLuma : ToolStates :=
  { tAllOff with noiseAndOptics :=
      { enabled := true, lumaNoise := -1, chromaNoise := 0, caFix := 0,
        vignette := 0, distortion := 0 } }

/-- Replacing only the distraction free-text list of a settings value. -/
def setDistractionsList (t : ToolStates) (s : String) : ToolStates :=
  { t with distractions := { t.distractions with list := s } }

/-! ## The settings history (claims C7 and C8)

`UPDATE_TOOL` is the history's `record` (truncate after the current index,
append, move the index to the end); `UNDO` and `REDO` move the index. -/

def undoStep (s : AppState) : AppState := appReducer s .undo

def redoStep (s : AppState) : AppState := appReducer s .redo

/-- A sequence of `UPDATE_TOOL` dispatches, applied left to right. -/
def recordAll (s : AppState) (ps : List ToolPatch) : AppState :=
  ps.foldl (fun st p => appReducer st (.updateTool p)) s

/-! ## The batch scheduler (claims C1, C4, C5, C10)

The batch-processing effect (src/index.tsx lines 944-962) re-runs on every
queue change: it counts `processing` items, takes pending items up to the
spare capacity `BATCH_CONCURRENCY - processing`, marks each `processing`
and dispatches the asynchronous call; the call's completion later
dispatches a success or failure `UPDATE_BATCH_ITEM`.  The embedding is an
event-step relation: one event per reducer dispatch of the effect, with
admissions taken one at a time from the front of the pending set (the
granularity at which the source's dispatches commit), and an `inFlight`
list recording the captured item of every outstanding call. -/

/-- The `count` of processing items the effect computes (line 945):
`batchQueue.filter(i => i.status === 'processing').length`. -/
def processingCount (q : List BatchItem) : Nat :=
  (q.filter (fun it => it.status == Status.processing)).length

/-- The `{ id, status: 'processing' }` payload dispatched on admission
(line 951). -/
def processingPatch (id : String) : BatchPatch :=
  { id := id, status := some .processing }

/-- The `{ id, status: 'cancelled' }` payload of the cancel button
(line 793). -/
def cancelPatch (id : String) : BatchPatch :=
  { id := id, status := some .cancelled }

/-- The `{ id, status: 'error', error: msg }` payload of the failure path
(line 959). -/
def failurePatch (id msg : String) : BatchPatch :=
  { id := id, status := some .error, error := some msg }

/-- The `finishedItem` payload of the success path (line 954): the item
captured at dispatch time spread with `status: 'done'`, the result and the
prompt; keys the captured item lacked stay absent. -/
def successPatch (captured : BatchItem) (resultImage promptUsed : String) : BatchPatch where
  id := captured.id
  file := some captured.file
  status := some .done
  result := some resultImage
  prompt := some promptUsed
  error := captured.error
  preset := captured.preset

/-- One scheduler state: the application state plus the captured items of
the outstanding enhancement calls. -/
structure SchedState where
  app : AppState
  inFlight : List BatchItem

/-- One event of the batch scheduler, at the granularity of the reducer
dispatches the source performs (src/index.tsx lines 192-200, 793,
944-962).  `enqueue` requires the generated ids to be fresh (the source
draws them from `Date.now()` and `Math.random()`); `admitJob` is one step of
the effect's admission loop, guarded by spare capacity exactly as the
effect computes it; completions may arrive at any later time, whatever the
item's current status (the source never re-checks it). -/
inductive SchedStep : SchedState → SchedState → Prop
  | enqueue (s : SchedState) (files : List ImageFile) (ids : List String)
      (hfresh : (((appReducer s.app (.addToBatch files ids)).batchQueue).map
          (fun it => it.id)).Nodup) :
      SchedStep s ⟨appReducer s.app (.addToBatch files ids), s.inFlight⟩
  | cancel (s : SchedState) (id : String)
      (hid : ∃ it ∈ s.app.batchQueue, it.id = id ∧
        (it.status = Status.pending ∨ it.status = Status.processing)) :
      SchedStep s ⟨appReducer s.app (.updateBatchItem (cancelPatch id)), s.inFlight⟩
  | admitJob (s : SchedState) (it : BatchItem)
      (hcap : processingCount s.app.batchQueue < BATCH_CONCURRENCY)
      (hit : s.app.batchQueue.find? (fun x => x.status == Status.pending) = some it) :
      SchedStep s ⟨appReducer s.app (.updateBatchItem (processingPatch it.id)),
        it :: s.inFlight⟩
  | completeSuccess (s : SchedState) (it : BatchItem) (img pr : String)
      (hmem : it ∈ s.inFlight) :
      SchedStep s ⟨appReducer
          (appReducer s.app (.updateBatchItem (successPatch it img pr)))
          (.addToLibrary (mergeBatchPatch it (successPatch it img pr))),
        s.inFlight.erase it⟩
  | completeFailure (s : SchedState) (it : BatchItem) (msg : String)
      (hmem : it ∈ s.inFlight) :
      SchedStep s ⟨appReducer s.app (.updateBatchItem (failurePatch it.id msg)),
        s.inFlight.erase it⟩
  | clearBatch (s : SchedState) :
      SchedStep s ⟨appReducer s.app .clearBatch, s.inFlight⟩

/-- The scheduler states reachable from the initial application state. -/
inductive SchedReachable : SchedState → Prop
  | init : SchedReachable ⟨initialState, []⟩
  | step {s t : SchedState} (hs : SchedReachable s) (hst : SchedStep s t) :
      SchedReachable t

/-- The inductive invariant: queue ids are pairwise distinct and at most
`BATCH_CONCURRENCY` items are `processing`. -/
def SchedInv (s : SchedState) : Prop :=
  (s.app.batchQueue.map (fun it => it.id)).Nodup
  ∧ processingCount s.app.batchQueue ≤ BATCH_CONCURRENCY

/-- A concrete uploaded image. -/
def demoFile : ImageFile where
  name := "portrait.png"
  type := "image/png"
  data := "data:image/png;base64,AAAA"

/-- A batch job already cancelled (its completion is still outstanding). -/
def cancelledJob : BatchItem where
  id := "job-1"
  file := demoFile
  status := .cancelled
  result := none
  prompt := none
  error := none
  preset := some initialToolStates

/-- The same job as the effect captured it at dispatch time (`pending`). -/
def capturedJob : BatchItem := { cancelledJob with status := .pending }

/-! ## Lemmas about the compiler's clause list -/

theorem ite_singleton_sublist {α : Type _} (c : Prop) [Decidable c] (a : α) :
    (if c then [a] else []).Sublist [a] := by
  split_ifs with h
  · exact List.Sublist.refl _
  · exact List.nil_sublist _

theorem mem_ite_singleton_iff {α : Type _} {c : Prop} [Decidable c] (a b : α) :
    (a ∈ (if c then [b] else [])) ↔ (c ∧ a = b) := by
  split_ifs with h <;> simp [h]

/-- The `corrections` list of the noise/optics block is nonempty exactly
when one of its five guards fires. -/
theorem noiseCorrections_ne_nil_iff (t : ToolStates) :
    noiseCorrections t ≠ [] ↔
      (0 < t.noiseAndOptics.lumaNoise ∨ 0 < t.noiseAndOptics.chromaNoise ∨
       0 < t.noiseAndOptics.caFix ∨ t.noiseAndOptics.vignette ≠ 0 ∨
       t.noiseAndOptics.distortion ≠ 0) := by
  unfold noiseCorrections
  split_ifs <;> simp_all

theorem superResolution_mem_promptClauses (t : ToolStates) :
    ClauseTag.superResolution ∈ promptClauses t ↔ t.superResolution.enabled = true := by
  simp [promptClauses, List.mem_append, mem_ite_singleton_iff]

theorem colorTone_mem_promptClauses (t : ToolStates) :
    ClauseTag.colorTone ∈ promptClauses t ↔ t.colorTone.enabled = true := by
  simp [promptClauses, List.mem_append, mem_ite_singleton_iff]

theorem facialRetouch_mem_promptClauses (t : ToolStates) :
    ClauseTag.facialRetouch ∈ promptClauses t ↔ t.facialRetouch.enabled = true := by
  simp [promptClauses, List.mem_append, mem_ite_singleton_iff]

theorem preserveDetails_mem_promptClauses (t : ToolStates) :
    ClauseTag.preserveDetails ∈ promptClauses t ↔ t.preserveDetails.enabled = true := by
  simp [promptClauses, List.mem_append, mem_ite_singleton_iff]

theorem hairStyling_mem_promptClauses (t : ToolStates) :
    ClauseTag.hairStyling ∈ promptClauses t ↔
      t.hairStyling.enabled = true ∧ t.hairStyling.mode ≠ HairMode.keep := by
  simp [promptClauses, List.mem_append, mem_ite_singleton_iff]

theorem background_mem_promptClauses (t : ToolStates) :
    ClauseTag.background ∈ promptClauses t ↔ t.background.enabled = true := by
  simp [promptClauses, List.mem_append, mem_ite_singleton_iff]

theorem crop_mem_promptClauses (t : ToolStates) :
    ClauseTag.crop ∈ promptClauses t ↔ t.crop.enabled = true := by
  simp [promptClauses, List.mem_append, mem_ite_singleton_iff]

theorem distractions_mem_promptClauses (t : ToolStates) :
    ClauseTag.distractions ∈ promptClauses t ↔
      t.distractions.enabled = true ∧ jsTrim t.distractions.list ≠ "" := by
  simp [promptClauses, List.mem_append, mem_ite_singleton_iff]

theorem noiseAndOptics_mem_promptClauses (t : ToolStates) :
    ClauseTag.noiseAndOptics ∈ promptClauses t ↔
      t.noiseAndOptics.enabled = true ∧ noiseCorrections t ≠ [] := by
  simp [promptClauses, List.mem_append, mem_ite_singleton_iff]

/-- The clause-tag list is always a subsequence of the canonical order. -/
theorem promptClauses_sublist (t : ToolStates) :
    (promptClauses t).Sublist canonicalClauses := by
  unfold promptClauses
  show List.Sublist _ ([ClauseTag.superResolution] ++ [ClauseTag.colorTone] ++ [ClauseTag.facialRetouch] ++
    [ClauseTag.preserveDetails] ++ [ClauseTag.hairStyling] ++ [ClauseTag.background] ++
    [ClauseTag.crop] ++ [ClauseTag.distractions] ++ [ClauseTag.noiseAndOptics])
  refine List.Sublist.append (List.Sublist.append (List.Sublist.append (List.Sublist.append
    (List.Sublist.append (List.Sublist.append (List.Sublist.append (List.Sublist.append
      ?_ ?_) ?_) ?_) ?_) ?_) ?_) ?_) ?_ <;>
    exact ite_singleton_sublist _ _

/-! ## C6 -/

/-- C6 (confirmed): for every settings value, the clause list of the
compiled prompt is a subsequence of the canonical clause sequence
(super resolution, color/exposure, facial retouch, preserve details,
hair styling, background, crop, distraction removal, noise/optics).
Since `buildPrompt` is a pure function of the settings value, the order of
the edits that produced the value cannot influence the clause order. -/
theorem buildPrompt_canonical_order (t : ToolStates) :
    (buildPromptOps t).Sublist (canonicalClauses.map (fun c => clauseText c t)) := by
  unfold buildPromptOps
  exact (promptClauses_sublist t).map _

/-! ## C3 -/

/-- C3 counterexample: with `background` enabled and its no-op mode `keep`,
the claim says the compiled prompt has no background clause; the compiler
emits one (the guard at src/index.tsx line 268 tests only `enabled`). -/
theorem background_keep_contributes_clause :
    tBgKeep.background.enabled = true ∧ tBgKeep.background.mode = BackgroundMode.keep ∧
    ClauseTag.background ∈ promptClauses tBgKeep := by decide

/-- C3 (corrected): a tool group contributes a clause iff its `enabled`
flag is true, refined as follows: hair styling also requires mode ≠ keep;
background contributes whenever enabled, even in `keep` mode; distraction
removal also requires a nonempty trimmed list; noise/optics also requires
a positive luma/chroma/CA value or a nonzero vignette/distortion value. -/
theorem clause_presence (t : ToolStates) :
    (ClauseTag.superResolution ∈ promptClauses t ↔ t.superResolution.enabled = true)
    ∧ (ClauseTag.colorTone ∈ promptClauses t ↔ t.colorTone.enabled = true)
    ∧ (ClauseTag.facialRetouch ∈ promptClauses t ↔ t.facialRetouch.enabled = true)
    ∧ (ClauseTag.preserveDetails ∈ promptClauses t ↔ t.preserveDetails.enabled = true)
    ∧ (ClauseTag.hairStyling ∈ promptClauses t ↔
        t.hairStyling.enabled = true ∧ t.hairStyling.mode ≠ HairMode.keep)
    ∧ (ClauseTag.background ∈ promptClauses t ↔ t.background.enabled = true)
    ∧ (ClauseTag.crop ∈ promptClauses t ↔ t.crop.enabled = true)
    ∧ (ClauseTag.distractions ∈ promptClauses t ↔
        t.distractions.enabled = true ∧ jsTrim t.distractions.list ≠ "")
    ∧ (ClauseTag.noiseAndOptics ∈ promptClauses t ↔
        t.noiseAndOptics.enabled = true ∧
          (0 < t.noiseAndOptics.lumaNoise ∨ 0 < t.noiseAndOptics.chromaNoise ∨
           0 < t.noiseAndOptics.caFix ∨ t.noiseAndOptics.vignette ≠ 0 ∨
           t.noiseAndOptics.distortion ≠ 0)) :=
  ⟨superResolution_mem_promptClauses t, colorTone_mem_promptClauses t,
   facialRetouch_mem_promptClauses t, preserveDetails_mem_promptClauses t,
   hairStyling_mem_promptClauses t, background_mem_promptClauses t,
   crop_mem_promptClauses t, distractions_mem_promptClauses t,
   (noiseAndOptics_mem_promptClauses t).trans
     (and_congr_right fun _ => noiseCorrections_ne_nil_iff t)⟩

/-! ## C9 -/

/-- C9 counterexample: noise/optics enabled with `lumaNoise = -1` (a value
an imported preset can carry) has a nonzero parameter, yet the compiler
emits no noise/optics clause — the source guards the three noise/CA
parameters with `> 0`, not with `!== 0`. -/
theorem negative_luma_gives_no_clause :
    tNegLuma.noiseAndOptics.enabled = true ∧ tNegLuma.noiseAndOptics.lumaNoise ≠ 0 ∧
    ClauseTag.noiseAndOptics ∉ promptClauses tNegLuma := by decide

/-- C9 (corrected): the noise/optics clause appears iff the group is
enabled and at least one of lumaNoise, chromaNoise, caFix is positive or
at least one of vignette, distortion is nonzero; in particular with all
five parameters zero no clause appears. -/
theorem noise_optics_clause_iff (t : ToolStates) :
    ClauseTag.noiseAndOptics ∈ promptClauses t ↔
      t.noiseAndOptics.enabled = true ∧
        (0 < t.noiseAndOptics.lumaNoise ∨ 0 < t.noiseAndOptics.chromaNoise ∨
         0 < t.noiseAndOptics.caFix ∨ t.noiseAndOptics.vignette ≠ 0 ∨
         t.noiseAndOptics.distortion ≠ 0) :=
  (noiseAndOptics_mem_promptClauses t).trans
    (and_congr_right fun _ => noiseCorrections_ne_nil_iff t)

/-! ## C2 -/

/-- C2 counterexample: with hair styling (and likewise background) enabled
in `custom` mode and a blank custom instruction the claim says the clause
is absent; the compiler emits it.  Moreover both instructions are embedded
untrimmed: a padded instruction and its trimmed form produce different
clause texts. -/
theorem hair_blank_instruction_contributes_clause :
    jsTrim tHairBlank.hairStyling.customInstruction = ""
    ∧ ClauseTag.hairStyling ∈ promptClauses tHairBlank
    ∧ clauseText ClauseTag.hairStyling tHairPad ≠ clauseText ClauseTag.hairStyling tHairTrim
    ∧ jsTrim tBgBlank.background.customInstruction = ""
    ∧ ClauseTag.background ∈ promptClauses tBgBlank
    ∧ clauseText ClauseTag.background tBgPad ≠ clauseText ClauseTag.background tBgTrim
    ∧ buildPrompt tBgPad ≠ buildPrompt tBgTrim := by
  decide

/-- C2 (corrected): only the distraction list is trimmed before embedding —
the compiled prompt depends on it only through its trimmed form — and it
suppresses its clause when blank: with an empty trimmed list the
distraction clause is absent even when the group is enabled.  The
hair-styling and background custom instructions do not suppress their
clauses: the hair clause appears whenever the group is enabled with mode
`custom` and the background clause whenever the group is enabled,
regardless of the instruction (the counterexample shows both embedded
untrimmed). -/
theorem free_text_trimming (t : ToolStates) (s : String)
    (hs : jsTrim s = jsTrim t.distractions.list) :
    buildPrompt (setDistractionsList t s) = buildPrompt t
    ∧ (jsTrim t.distractions.list = "" → ClauseTag.distractions ∉ promptClauses t)
    ∧ (t.hairStyling.enabled = true → t.hairStyling.mode = HairMode.custom →
        ClauseTag.hairStyling ∈ promptClauses t)
    ∧ (t.background.enabled = true → ClauseTag.background ∈ promptClauses t) := by
  refine ⟨?_, ?_, ?_, ?_⟩
  · have h1 : promptClauses (setDistractionsList t s) = promptClauses t := by
      dsimp only [promptClauses, setDistractionsList, noiseCorrections]
      rw [hs]
    have h2 : ∀ c, clauseText c (setDistractionsList t s) = clauseText c t := by
      intro c
      cases c <;> first
        | rfl
        | (dsimp only [clauseText, setDistractionsList]; rw [hs])
    have h3 : buildPromptOps (setDistractionsList t s) = buildPromptOps t := by
      unfold buildPromptOps
      rw [h1]
      exact List.map_congr_left (fun c _ => h2 c)
    unfold buildPrompt
    rw [h3]
  · intro hempty hmem
    obtain ⟨-, hne⟩ := (distractions_mem_promptClauses t).mp hmem
    exact hne hempty
  · intro he hm
    exact (hairStyling_mem_promptClauses t).mpr ⟨he, by rw [hm]; intro hcon; cases hcon⟩
  · intro he
    exact (background_mem_promptClauses t).mpr he

/-- C2 witness: the trimming theorem at a concrete settings value with
background enabled (the distractions list `" a, b "` replaced by its
trimmed form `"a, b"` compiles the same, and the background clause is
present). -/
theorem free_text_trimming_witness :
    jsTrim "a, b" = jsTrim ((setDistractionsList tBgBlank " a, b ").distractions.list)
    ∧ (buildPrompt (setDistractionsList (setDistractionsList tBgBlank " a, b ") "a, b")
        = buildPrompt (setDistractionsList tBgBlank " a, b ")
      ∧ (jsTrim (setDistractionsList tBgBlank " a, b ").distractions.list = "" →
          ClauseTag.distractions ∉ promptClauses (setDistractionsList tBgBlank " a, b "))
      ∧ ((setDistractionsList tBgBlank " a, b ").hairStyling.enabled = true →
          (setDistractionsList tBgBlank " a, b ").hairStyling.mode = HairMode.custom →
          ClauseTag.hairStyling ∈ promptClauses (setDistractionsList tBgBlank " a, b "))
      ∧ ((setDistractionsList tBgBlank " a, b ").background.enabled = true →
          ClauseTag.background ∈ promptClauses (setDistractionsList tBgBlank " a, b "))) :=
  ⟨by decide, free_text_trimming (setDistractionsList tBgBlank " a, b ") "a, b" (by decide)⟩

/-! ## Lemmas about the settings history -/

theorem undoStep_spec (s : AppState) (h : 0 < s.historyIndex) :
    undoStep s = { s with
      historyIndex := s.historyIndex - 1,
      tools := s.history.getD (s.historyIndex - 1) initialToolStates } := by
  unfold undoStep appReducer
  rw [if_pos h]

theorem redoStep_spec (s : AppState) (h : s.historyIndex < s.history.length - 1) :
    redoStep s = { s with
      historyIndex := s.historyIndex + 1,
      tools := s.history.getD (s.historyIndex + 1) initialToolStates } := by
  unfold redoStep appReducer
  rw [if_pos h]

theorem redoStep_noop (s : AppState) (h : ¬ s.historyIndex < s.history.length - 1) :
    redoStep s = s := by
  unfold redoStep appReducer
  rw [if_neg h]

/-- One `UPDATE_TOOL` from a valid state: the index moves to the new last
entry and the live tools equal that entry. -/
theorem updateTool_history (s : AppState) (p : ToolPatch)
    (hv : s.historyIndex < s.history.length) :
    (appReducer s (.updateTool p)).historyIndex = s.historyIndex + 1
    ∧ (appReducer s (.updateTool p)).historyIndex + 1
        = (appReducer s (.updateTool p)).history.length
    ∧ (appReducer s (.updateTool p)).tools
        = (appReducer s (.updateTool p)).history.getD
            (appReducer s (.updateTool p)).historyIndex initialToolStates := by
  have hlen : (s.history.take (s.historyIndex + 1)).length = s.historyIndex + 1 := by
    rw [List.length_take]
    omega
  dsimp only [appReducer]
  simp only [List.length_append, List.length_singleton, hlen]
  refine ⟨by omega, by omega, ?_⟩
  have h0 : s.historyIndex + 1 + 1 - 1 = (s.history.take (s.historyIndex + 1)).length := by omega
  rw [h0, List.getD_eq_getElem?_getD, List.getElem?_concat_length]
  rfl

/-- A block of `UPDATE_TOOL` dispatches from a valid state: the index
advances by the block's length, stays valid, and (for a nonempty block)
lands on the last entry with the live tools equal to it. -/
theorem recordAll_spec (ps : List ToolPatch) (s : AppState)
    (hv : s.historyIndex < s.history.length) :
    (recordAll s ps).historyIndex = s.historyIndex + ps.length
    ∧ (recordAll s ps).historyIndex < (recordAll s ps).history.length
    ∧ (ps ≠ [] →
        (recordAll s ps).historyIndex + 1 = (recordAll s ps).history.length
        ∧ (recordAll s ps).tools
            = (recordAll s ps).history.getD (recordAll s ps).historyIndex
                initialToolStates) := by
  induction ps generalizing s with
  | nil =>
    refine ⟨by simp [recordAll], by simpa [recordAll] using hv, by simp⟩
  | cons p ps ih =>
    obtain ⟨hidx, htop, hm⟩ := updateTool_history s p hv
    have hv' : (appReducer s (.updateTool p)).historyIndex
        < (appReducer s (.updateTool p)).history.length := by omega
    have hfold : recordAll s (p :: ps) = recordAll (appReducer s (.updateTool p)) ps := rfl
    obtain ⟨ih1, ih2, ih3⟩ := ih (appReducer s (.updateTool p)) hv'
    rw [hfold]
    refine ⟨by rw [ih1, hidx]; simp [Nat.add_assoc, Nat.add_comm 1], ih2, fun _ => ?_⟩
    rcases eq_or_ne ps [] with hps | hps
    · subst hps
      exact ⟨htop, hm⟩
    · exact ih3 hps

/-- Repeated `UNDO` from a state whose tools match the entry at the index:
the index moves back and the tools track the addressed entry. -/
theorem undo_iterate (k : Nat) (s : AppState)
    (hk : k ≤ s.historyIndex)
    (hm : s.tools = s.history.getD s.historyIndex initialToolStates) :
    undoStep^[k] s
      = { s with
          historyIndex := s.historyIndex - k,
          tools := s.history.getD (s.historyIndex - k) initialToolStates } := by
  induction k with
  | zero =>
    rw [Function.iterate_zero_apply, Nat.sub_zero, ← hm]
  | succ k ih =>
    have hk' : k ≤ s.historyIndex := Nat.le_of_succ_le hk
    rw [Function.iterate_succ_apply', ih hk',
      undoStep_spec _ (show 0 < s.historyIndex - k by omega)]
    have h1 : s.historyIndex - k - 1 = s.historyIndex - (k + 1) := by omega
    dsimp only
    rw [h1]

/-- Repeated `REDO` from a state whose tools match the entry at the index:
the index moves forward and the tools track the addressed entry. -/
theorem redo_iterate (k : Nat) (s : AppState)
    (hk : s.historyIndex + k + 1 ≤ s.history.length)
    (hm : s.tools = s.history.getD s.historyIndex initialToolStates) :
    redoStep^[k] s
      = { s with
          historyIndex := s.historyIndex + k,
          tools := s.history.getD (s.historyIndex + k) initialToolStates } := by
  induction k with
  | zero =>
    rw [Function.iterate_zero_apply, Nat.add_zero, ← hm]
  | succ k ih =>
    have hk' : s.historyIndex + k + 1 ≤ s.history.length := by omega
    rw [Function.iterate_succ_apply', ih hk',
      redoStep_spec _ (show s.historyIndex + k < s.history.length - 1 by omega)]
    dsimp only
    have h1 : s.historyIndex + k + 1 = s.historyIndex + (k + 1) := by omega
    rw [h1]

/-! ## C7 -/

/-- C7 (confirmed): from any valid state, after any block of N `record`
operations (`UPDATE_TOOL` dispatches), k `UNDO`s followed by k `REDO`s
(k ≤ N) restore the live tools to their value before the undos. -/
theorem history_round_trip (s : AppState) (ps : List ToolPatch) (k : Nat)
    (hv : s.historyIndex < s.history.length) (hk : k ≤ ps.length) :
    (redoStep^[k] (undoStep^[k] (recordAll s ps))).tools = (recordAll s ps).tools := by
  rcases eq_or_ne ps [] with hps | hps
  · subst hps
    have hk0 : k = 0 := Nat.le_zero.mp hk
    subst hk0
    rfl
  · obtain ⟨hidx, hv1, hne⟩ := recordAll_spec ps s hv
    obtain ⟨htop, hm⟩ := hne hps
    have hk1 : k ≤ (recordAll s ps).historyIndex := by
      rw [hidx]
      omega
    rw [undo_iterate k _ hk1 hm]
    rw [redo_iterate k _ (by dsimp only; omega) rfl]
    dsimp only
    rw [Nat.sub_add_cancel hk1, ← hm]

/-- C7 witness: the round trip at the initial state with one recorded
update and one undo/redo pair. -/
theorem history_round_trip_witness :
    initialState.historyIndex < initialState.history.length
    ∧ (1 : Nat) ≤ ([ToolPatch.crop { enabled := some true }] : List ToolPatch).length
    ∧ (redoStep^[1] (undoStep^[1]
          (recordAll initialState [ToolPatch.crop { enabled := some true }]))).tools
        = (recordAll initialState [ToolPatch.crop { enabled := some true }]).tools :=
  ⟨by decide, by decide,
   history_round_trip initialState [ToolPatch.crop { enabled := some true }] 1
     (by decide) (by decide)⟩

/-! ## C8 -/

/-- C8 (confirmed): from a valid state with at least one undoable entry,
after `UNDO` and then recording a new value X via `UPDATE_TOOL`, `REDO` is
a no-op and the live tools equal X (the merge of the patch into the
post-undo tools). -/
theorem history_truncation (s : AppState) (p : ToolPatch)
    (hv : s.historyIndex < s.history.length) (h0 : 0 < s.historyIndex) :
    redoStep (appReducer (undoStep s) (.updateTool p))
        = appReducer (undoStep s) (.updateTool p)
    ∧ (appReducer (undoStep s) (.updateTool p)).tools
        = applyToolPatch (undoStep s).tools p := by
  have hu := undoStep_spec s h0
  have hv' : (undoStep s).historyIndex < (undoStep s).history.length := by
    rw [hu]
    dsimp only
    omega
  obtain ⟨hidx, htop, hm⟩ := updateTool_history (undoStep s) p hv'
  exact ⟨redoStep_noop _ (by omega), rfl⟩

/-- C8 witness: the truncation property at a concrete two-entry history. -/
theorem history_truncation_witness :
    (recordAll initialState [ToolPatch.crop { enabled := some true }]).historyIndex
        < (recordAll initialState [ToolPatch.crop { enabled := some true }]).history.length
    ∧ 0 < (recordAll initialState [ToolPatch.crop { enabled := some true }]).historyIndex
    ∧ (redoStep (appReducer (undoStep (recordAll initialState [ToolPatch.crop { enabled := some true }]))
          (.updateTool (ToolPatch.distractions { enabled := some true })))
        = appReducer (undoStep (recordAll initialState [ToolPatch.crop { enabled := some true }]))
            (.updateTool (ToolPatch.distractions { enabled := some true }))
      ∧ (appReducer (undoStep (recordAll initialState [ToolPatch.crop { enabled := some true }]))
            (.updateTool (ToolPatch.distractions { enabled := some true }))).tools
          = applyToolPatch
              (undoStep (recordAll initialState [ToolPatch.crop { enabled := some true }])).tools
              (ToolPatch.distractions { enabled := some true })) :=
  ⟨by decide, by decide,
   history_truncation (recordAll initialState [ToolPatch.crop { enabled := some true }])
     (ToolPatch.distractions { enabled := some true }) (by decide) (by decide)⟩

/-! ## Lemmas about the batch queue -/

theorem appReducer_updateBatchItem_queue (s : AppState) (p : BatchPatch) :
    (appReducer s (.updateBatchItem p)).batchQueue = updateQueue s.batchQueue p := rfl

theorem appReducer_addToBatch_queue (s : AppState) (files : List ImageFile)
    (ids : List String) :
    (appReducer s (.addToBatch files ids)).batchQueue
      = s.batchQueue ++ newBatchItems s.tools files ids := rfl

theorem appReducer_addToLibrary_queue (s : AppState) (item : BatchItem) :
    (appReducer s (.addToLibrary item)).batchQueue = s.batchQueue := rfl

theorem updateQueue_cons (a : BatchItem) (tl : List BatchItem) (p : BatchPatch) :
    updateQueue (a :: tl) p
      = (if a.id = p.id then mergeBatchPatch a p else a) :: updateQueue tl p := rfl

/-- `UPDATE_BATCH_ITEM` never changes the id of any queue entry. -/
theorem updateQueue_map_id (q : List BatchItem) (p : BatchPatch) :
    (updateQueue q p).map (fun it => it.id) = q.map (fun it => it.id) := by
  induction q with
  | nil => rfl
  | cons a tl ih =>
    rw [updateQueue_cons, List.map_cons, List.map_cons, ih]
    by_cases hid : a.id = p.id
    · rw [if_pos hid]
      simp [mergeBatchPatch, hid]
    · rw [if_neg hid]

/-- `UPDATE_BATCH_ITEM` whose id matches no entry leaves the queue as it
was, entry for entry. -/
theorem updateQueue_eq_of_not_mem (q : List BatchItem) (p : BatchPatch)
    (h : p.id ∉ q.map (fun it => it.id)) : updateQueue q p = q := by
  induction q with
  | nil => rfl
  | cons a tl ih =>
    rw [List.map_cons, List.mem_cons] at h
    push_neg at h
    rw [updateQueue_cons, if_neg (fun hc => h.1 hc.symm), ih h.2]

theorem processingCount_nil : processingCount [] = 0 := rfl

theorem processingCount_cons (it : BatchItem) (q : List BatchItem) :
    processingCount (it :: q)
      = (if it.status = Status.processing then 1 else 0) + processingCount q := by
  simp only [processingCount, List.filter_cons]
  by_cases h : it.status = Status.processing
  · rw [if_pos (by simpa using h), if_pos h, List.length_cons]
    omega
  · rw [if_neg (by simpa using h), if_neg h]
    omega

theorem processingCount_append (q r : List BatchItem) :
    processingCount (q ++ r) = processingCount q + processingCount r := by
  simp [processingCount, List.filter_append]

/-- Items created by `ADD_TO_BATCH` are all `pending`. -/
theorem processingCount_newBatchItems (tools : ToolStates) (files : List ImageFile)
    (ids : List String) :
    processingCount (newBatchItems tools files ids) = 0 := by
  unfold newBatchItems
  induction files.zip ids with
  | nil => rfl
  | cons a tl ih =>
    rw [List.map_cons, processingCount_cons, ih]
    simp

/-- A patch that sets a non-`processing` status never increases the number
of `processing` items. -/
theorem processingCount_updateQueue_le (q : List BatchItem) (p : BatchPatch)
    (st : Status) (hst : p.status = some st) (hne : st ≠ Status.processing) :
    processingCount (updateQueue q p) ≤ processingCount q := by
  induction q with
  | nil => exact Nat.le_refl _
  | cons a tl ih =>
    rw [updateQueue_cons, processingCount_cons, processingCount_cons]
    by_cases hid : a.id = p.id
    · rw [if_pos hid]
      have hmst : (mergeBatchPatch a p).status = st := by
        simp [mergeBatchPatch, hst]
      rw [hmst, if_neg hne]
      have h1 : (0 : Nat) ≤ (if a.status = Status.processing then 1 else 0) := Nat.zero_le _
      omega
    · rw [if_neg hid]
      omega

/-- On a queue with pairwise-distinct ids, one `UPDATE_BATCH_ITEM` can
raise the number of `processing` items by at most one. -/
theorem processingCount_updateQueue_le_succ (q : List BatchItem) (p : BatchPatch)
    (hnd : (q.map (fun it => it.id)).Nodup) :
    processingCount (updateQueue q p) ≤ processingCount q + 1 := by
  induction q with
  | nil => simp [updateQueue, processingCount_nil]
  | cons a tl ih =>
    rw [List.map_cons, List.nodup_cons] at hnd
    obtain ⟨hna, hnd'⟩ := hnd
    rw [updateQueue_cons, processingCount_cons, processingCount_cons]
    by_cases hid : a.id = p.id
    · rw [if_pos hid, updateQueue_eq_of_not_mem tl p (hid ▸ hna)]
      have h0 : (if (mergeBatchPatch a p).status = Status.processing then 1 else 0) ≤ 1 := by
        split_ifs <;> omega
      omega
    · rw [if_neg hid]
      have := ih hnd'
      omega

theorem schedInv_step {s t : SchedState} (hs : SchedInv s) (hst : SchedStep s t) :
    SchedInv t := by
  obtain ⟨hnd, hcnt⟩ := hs
  cases hst with
  | enqueue files ids hfresh =>
    refine ⟨hfresh, ?_⟩
    rw [appReducer_addToBatch_queue, processingCount_append,
      processingCount_newBatchItems]
    omega
  | cancel id hid =>
    refine ⟨?_, ?_⟩
    · rw [appReducer_updateBatchItem_queue, updateQueue_map_id]
      exact hnd
    · rw [appReducer_updateBatchItem_queue]
      exact le_trans
        (processingCount_updateQueue_le _ _ Status.cancelled rfl (by decide)) hcnt
  | admitJob it hcap hit =>
    refine ⟨?_, ?_⟩
    · rw [appReducer_updateBatchItem_queue, updateQueue_map_id]
      exact hnd
    · rw [appReducer_updateBatchItem_queue]
      have := processingCount_updateQueue_le_succ s.app.batchQueue
        (processingPatch it.id) hnd
      omega
  | completeSuccess it img pr hmem =>
    refine ⟨?_, ?_⟩
    · rw [appReducer_addToLibrary_queue, appReducer_updateBatchItem_queue,
        updateQueue_map_id]
      exact hnd
    · rw [appReducer_addToLibrary_queue, appReducer_updateBatchItem_queue]
      exact le_trans
        (processingCount_updateQueue_le _ _ Status.done rfl (by decide)) hcnt
  | completeFailure it msg hmem =>
    refine ⟨?_, ?_⟩
    · rw [appReducer_updateBatchItem_queue, updateQueue_map_id]
      exact hnd
    · rw [appReducer_updateBatchItem_queue]
      exact le_trans
        (processingCount_updateQueue_le _ _ Status.error rfl (by decide)) hcnt
  | clearBatch =>
    exact ⟨by simp [appReducer], by simp [appReducer, processingCount_nil, BATCH_CONCURRENCY]⟩

theorem schedInv_reachable {s : SchedState} (hs : SchedReachable s) : SchedInv s := by
  induction hs with
  | init =>
    exact ⟨by simp [initialState], by simp [initialState, processingCount_nil, BATCH_CONCURRENCY]⟩
  | step hs hst ih => exact schedInv_step ih hst

/-! ## C5 -/

/-- C5 (confirmed): in every scheduler state reachable by any sequence of
enqueue, cancel, admission and completion events, at most
`BATCH_CONCURRENCY = 2` batch items are in `processing` status. -/
theorem scheduler_concurrency_bound {s : SchedState} (hs : SchedReachable s) :
    processingCount s.app.batchQueue ≤ BATCH_CONCURRENCY :=
  (schedInv_reachable hs).2

/-- C5 witness: the bound at the initial scheduler state. -/
theorem scheduler_concurrency_bound_witness :
    SchedReachable ⟨initialState, []⟩
    ∧ processingCount (⟨initialState, []⟩ : SchedState).app.batchQueue
        ≤ BATCH_CONCURRENCY :=
  ⟨SchedReachable.init, scheduler_concurrency_bound SchedReachable.init⟩

/-! ## C1 -/

/-- C1 (code bug): the `UPDATE_BATCH_ITEM` reducer case merges a late
success payload into a `cancelled` job unconditionally — the job's status
becomes `done` and its `result` is populated, so a terminal `cancelled`
status IS overwritten, against the spec's cancellation-finality contract
(and against the cancel button's purpose for `processing` jobs). -/
theorem late_success_overwrites_cancelled :
    cancelledJob.status = Status.cancelled
    ∧ cancelledJob.result = none
    ∧ ((appReducer { initialState with batchQueue := [cancelledJob] }
          (.updateBatchItem (successPatch capturedJob "img" "prompt"))).batchQueue.map
        (fun it => (it.id, it.status, it.result)))
        = [("job-1", Status.done, some "img")] := by
  refine ⟨rfl, rfl, ?_⟩
  decide

/-! ## C10 -/

/-- C10 (confirmed): an `UPDATE_BATCH_ITEM` whose id matches no item of
the batch queue (for example a late completion after `CLEAR_BATCH`)
returns a state equal to the input state: the queue and every other field
are unchanged, and no error is raised (the reducer is total). -/
theorem update_batch_item_unknown_id_noop (s : AppState) (p : BatchPatch)
    (h : ∀ it ∈ s.batchQueue, it.id ≠ p.id) :
    appReducer s (.updateBatchItem p) = s := by
  have hq : updateQueue s.batchQueue p = s.batchQueue :=
    updateQueue_eq_of_not_mem _ _ (by
      intro hmem
      obtain ⟨it, hit, hid⟩ := List.mem_map.mp hmem
      exact h it hit hid)
  show { s with batchQueue := updateQueue s.batchQueue p } = s
  rw [hq]

/-- C10 witness: a late completion for an id absent from a one-item queue
leaves the state untouched. -/
theorem update_batch_item_unknown_id_noop_witness :
    (∀ it ∈ ({ initialState with batchQueue := [cancelledJob] } : AppState).batchQueue,
      it.id ≠ (failurePatch "job-2" "boom").id)
    ∧ appReducer { initialState with batchQueue := [cancelledJob] }
        (.updateBatchItem (failurePatch "job-2" "boom"))
        = { initialState with batchQueue := [cancelledJob] } :=
  ⟨by decide,
   update_batch_item_unknown_id_noop
     { initialState with batchQueue := [cancelledJob] }
     (failurePatch "job-2" "boom") (by decide)⟩

/-! ## C4 -/

/-- C4 counterexample: with no API key configured, the claim says nothing
is queued, admitted or driven to per-job error; but `ADD_TO_BATCH` queues
a `pending` job (the reducer never consults the key), the effect admits it
to `processing`, and the `enhanceImage` guard then fails the job
individually with the missing-key message as its per-job error. -/
theorem missing_key_jobs_still_queued_and_errored :
    enhanceImageCheck false = Except.error missingApiKeyMessage
    ∧ ((appReducer initialState (.addToBatch [demoFile] ["job-1"])).batchQueue.map
        (fun it => it.status)) = [Status.pending]
    ∧ ((appReducer (appReducer initialState (.addToBatch [demoFile] ["job-1"]))
          (.updateBatchItem (processingPatch "job-1"))).batchQueue.map
        (fun it => it.status)) = [Status.processing]
    ∧ ((appReducer (appReducer (appReducer initialState (.addToBatch [demoFile] ["job-1"]))
          (.updateBatchItem (processingPatch "job-1")))
          (.updateBatchItem (failurePatch "job-1" missingApiKeyMessage))).batchQueue.map
        (fun it => (it.status, it.error)))
        = [(Status.error, some missingApiKeyMessage)] := by
  refine ⟨rfl, ?_, ?_, ?_⟩ <;> decide

/-- C4 (corrected): a missing API key disables the Enhance / Start Batch
button and makes the `enhanceImage` guard fail with the missing-key
message, but enqueueing is not blocked: `ADD_TO_BATCH` appends its jobs as
`pending` unconditionally, and a failure completion then drives the
matching job to per-job `error` status carrying that message. -/
theorem batch_without_key_not_rejected (s : AppState) (files : List ImageFile)
    (ids : List String) (hImg hPend hProc : Bool) (pid msg : String) :
    canEnhance hImg hPend hProc false = false
    ∧ enhanceImageCheck false = Except.error missingApiKeyMessage
    ∧ (appReducer s (.addToBatch files ids)).batchQueue
        = s.batchQueue ++ newBatchItems s.tools files ids
    ∧ (∀ it ∈ newBatchItems s.tools files ids, it.status = Status.pending)
    ∧ (∀ it ∈ updateQueue s.batchQueue (failurePatch pid msg),
        it.id = pid → it.status = Status.error ∧ it.error = some msg) := by
  refine ⟨by simp [canEnhance], rfl, rfl, ?_, ?_⟩
  · intro it hit
    obtain ⟨fi, _, rfl⟩ := List.mem_map.mp hit
    rfl
  · intro it hit hid
    obtain ⟨it0, hit0, heq⟩ := List.mem_map.mp hit
    by_cases h0 : it0.id = (failurePatch pid msg).id
    · rw [if_pos h0] at heq
      subst heq
      exact ⟨rfl, rfl⟩
    · rw [if_neg h0] at heq
      subst heq
      exact absurd hid h0

/-- C4 witness: the amended statement at a concrete state and job. -/
theorem batch_without_key_not_rejected_witness :
    canEnhance true true false false = false
    ∧ enhanceImageCheck false = Except.error missingApiKeyMessage
    ∧ (appReducer initialState (.addToBatch [demoFile] ["job-1"])).batchQueue
        = initialState.batchQueue ++ newBatchItems initialState.tools [demoFile] ["job-1"]
    ∧ (∀ it ∈ newBatchItems initialState.tools [demoFile] ["job-1"],
        it.status = Status.pending)
    ∧ (∀ it ∈ updateQueue initialState.batchQueue (failurePatch "job-1" missingApiKeyMessage),
        it.id = "job-1" → it.status = Status.error
          ∧ it.error = some missingApiKeyMessage) :=
  batch_without_key_not_rejected initialState [demoFile] ["job-1"] true true false
    "job-1" missingApiKeyMessage

end UpscaleV2
